import Mathlib

/-!
Verification of the pyglsl Python-to-GLSL transpiler core
(`src/pyglsl/parse.py`, `src/pyglsl/stage.py`, `src/pyglsl/interface.py`)
against its natural-language specification.

The embedding mirrors the source: Python AST nodes become inductive types,
the `GlslVisitor` methods become functions returning `Except String`
(a raised Python exception becomes `.error msg`), and generated GLSL code
(`GlslCode.lines`) becomes `List String`.
-/

namespace Pyglsl

/-- Opening curly brace character, written via code to keep it out of string
literals. -/
def lbrace : String := String.singleton (Char.ofNat 123)

/-- Closing curly brace character. -/
def rbrace : String := String.singleton (Char.ofNat 125)

/-- constants.py: `GLSL_INDENT = '    '`. -/
def GLSL_INDENT : String := "    "

/-- constants.py: `GLSL_STATEMENT_TERMINATORS = (';', '{', '}')`. -/
def GLSL_STATEMENT_TERMINATORS : List Char := [';', Char.ofNat 123, Char.ofNat 125]

/-- constants.py: `GLSL_BUILTIN_TYPES` (the full frozenset). -/
def GLSL_BUILTIN_TYPES : List String :=
  [ "bool", "int", "uint", "float", "double",
    "vec2", "vec3", "vec4",
    "bvec2", "bvec3", "bvec4",
    "ivec2", "ivec3", "ivec4",
    "uvec2", "uvec3", "uvec4",
    "dvec2", "dvec3", "dvec4",
    "mat2", "mat3", "mat4",
    "mat2x2", "mat2x3", "mat2x4",
    "mat3x2", "mat3x3", "mat3x4",
    "mat4x2", "mat4x3", "mat4x4",
    "dmat2", "dmat3", "dmat4",
    "dmat2x2", "dmat2x3", "dmat2x4",
    "dmat3x2", "dmat3x3", "dmat3x4",
    "dmat4x2", "dmat4x3", "dmat4x4",
    "sampler1D", "sampler2D", "sampler3D", "samplerCube",
    "sampler1DShadow", "sampler2DShadow", "samplerCubeShadow",
    "isampler1D", "isampler2D", "isampler3D", "isamplerCube",
    "usampler1D", "usampler2D", "usampler3D", "usamplerCube",
    "sampler2DRect", "sampler2DRectShadow",
    "isampler2DRect", "usampler2DRect",
    "samplerBuffer", "isamplerBuffer", "usamplerBuffer",
    "sampler1DArray", "sampler2DArray", "samplerCubeArray",
    "sampler1DArrayShadow", "sampler2DArrayShadow", "samplerCubeArrayShadow",
    "isampler1DArray", "isampler2DArray", "isamplerCubeArray",
    "usampler1DArray", "usampler2DArray", "usamplerCubeArray",
    "image1D", "iimage1D", "uimage1D",
    "image2D", "iimage2D", "uimage2D",
    "image3D", "iimage3D", "uimage3D",
    "image2DRect", "iimage2DRect", "uimage2DRect",
    "imageCube", "iimageCube", "uimageCube",
    "imageBuffer", "iimageBuffer", "uimageBuffer",
    "image1DArray", "iimage1DArray", "uimage1DArray",
    "image2DArray", "iimage2DArray", "uimage2DArray",
    "imageCubeArray", "iimageCubeArray", "uimageCubeArray" ]

/-- Python `ast` unary operators appearing in `op_symbol` (parse.py). -/
inductive UnOpK where
  | uadd | usub | notOp
  deriving DecidableEq

/-- Python `ast` binary operators appearing in `op_symbol` (parse.py). -/
inductive BinOpK where
  | add | sub | mult | matmult | div | mod
  | lshift | rshift | bitor | bitxor | bitand
  deriving DecidableEq

/-- Python `ast` comparison operators appearing in `op_symbol` (parse.py). -/
inductive CmpOpK where
  | eq | noteq | lt | lte | gt | gte | isOp | isnot
  deriving DecidableEq

/-- parse.py `op_symbol` restricted to unary operators. -/
def unOpSymbol : UnOpK → String
  | .uadd => "+"
  | .usub => "-"
  | .notOp => "!"

/-- parse.py `op_symbol` restricted to binary operators. -/
def binOpSymbol : BinOpK → String
  | .add => "+"
  | .sub => "-"
  | .mult => "*"
  | .matmult => "*"
  | .div => "/"
  | .mod => "%"
  | .lshift => "<<"
  | .rshift => ">>"
  | .bitor => "|"
  | .bitxor => "^"
  | .bitand => "&"

/-- parse.py `op_symbol` restricted to comparison operators. -/
def cmpOpSymbol : CmpOpK → String
  | .eq => "=="
  | .noteq => "!="
  | .lt => "<"
  | .lte => "<="
  | .gt => ">"
  | .gte => ">="
  | .isOp => "=="
  | .isnot => "!="

/-- A Python `ast.Constant` value as dispatched on by `GlslVisitor.visit_Constant`.
An int constant carries its value (Python `str(value)` is its decimal text);
a float constant carries its `str(value)` text, since floating point itself is
not modelled; a string constant carries its text. -/
inductive PyConst where
  | boolC (b : Bool)
  | intC (n : Int)
  | floatC (repr : String)
  | strC (s : String)
  | noneC
  deriving DecidableEq

/-- parse.py `GlslVisitor.visit_Constant`: the `GlslCode.lines` produced.
Booleans emit `true`/`false`; numerics emit `str(value)`; strings produce an
empty `GlslCode` (no lines); `None` produces the single line `null`. -/
def visit_Constant : PyConst → List String
  | .boolC true => ["true"]
  | .boolC false => ["false"]
  | .intC n => [toString n]
  | .floatC r => [r]
  | .strC _ => []
  | .noneC => ["null"]

mutual
/-- Python expression AST nodes handled by `GlslVisitor` (parse.py).
`call` carries positional arguments and keyword arguments, as `ast.Call` does. -/
inductive Expr where
  | name (id : String)
  | attr (value : Expr) (a : String)
  | call (f : Expr) (args : ExprList) (kws : KwList)
  | const (c : PyConst)
  | binop (l : Expr) (op : BinOpK) (r : Expr)
  | unaryop (op : UnOpK) (e : Expr)
  | compare (l : Expr) (op : CmpOpK) (r : Expr)
  | subscript (v : Expr) (ix : Expr)
  | listLit (elts : ExprList)
  | listComp (elt : Expr) (gens : CompList)

/-- A list of expressions (`ast.Call.args`, `ast.List.elts`). -/
inductive ExprList where
  | nil
  | cons (hd : Expr) (tl : ExprList)

/-- A list of keyword arguments (`ast.Call.keywords`), each `(arg, value)`. -/
inductive KwList where
  | nil
  | cons (arg : String) (value : Expr) (tl : KwList)

/-- A list of comprehension generators (`ast.ListComp.generators`), each
carrying `(target, iter, ifs)`. -/
inductive CompList where
  | nil
  | cons (target : Expr) (iter : Expr) (ifs : ExprList) (tl : CompList)
end

/-- Length of an `ExprList`. -/
def ExprList.length : ExprList → Nat
  | .nil => 0
  | .cons _ tl => tl.length + 1

/-- Length of a `CompList`. -/
def CompList.length : CompList → Nat
  | .nil => 0
  | .cons _ _ _ tl => tl.length + 1

/-- `GlslCode.one` (parse.py): demand exactly one generated line. -/
def one : List String → Except String String
  | [x] => .ok x
  | _ => .error "expected exactly one line"

mutual
/-- parse.py `GlslVisitor.visit` on expressions: the `GlslCode.lines` produced
for each expression node, or the raised exception. Mirrors `visit_Name`,
`visit_Attribute`, `visit_Call`, `visit_Constant`, `visit_BinOp`,
`visit_UnaryOp`, `visit_Compare`, `visit_Subscript`, `visit_List` and
`visit_ListComp` (the latter two raise in expression position). -/
def visitExpr : Expr → Except String (List String)
  | .name id => .ok [id]
  | .attr v a => do
      let s ← one (← visitExpr v)
      .ok [s ++ "." ++ a]
  | .call f args _kws => do
      let n ← one (← visitExpr f)
      let rendered ← visitEach args
      .ok [n ++ "(" ++ String.intercalate ", " rendered ++ ")"]
  | .const c => .ok (visit_Constant c)
  | .binop l op r => do
      let ls ← one (← visitExpr l)
      let rs ← one (← visitExpr r)
      .ok ["(" ++ ls ++ " " ++ binOpSymbol op ++ " " ++ rs ++ ")"]
  | .unaryop op e => do
      let s ← one (← visitExpr e)
      .ok [unOpSymbol op ++ s]
  | .compare l op r => do
      let ls ← one (← visitExpr l)
      let rs ← one (← visitExpr r)
      .ok [ls ++ " " ++ cmpOpSymbol op ++ " " ++ rs]
  | .subscript v ix => do
      let vs ← one (← visitExpr v)
      let is ← one (← visitExpr ix)
      .ok [vs ++ "[" ++ is ++ "]"]
  | .listLit _ =>
      .error "List literals are only supported in array variable declarations. Use array assignment like arr = [1.0, 2.0, 3.0] at declaration time."
  | .listComp _ _ =>
      .error "List comprehensions must be used in variable assignments. Example: arr = [i * 2 for i in range(10)]"

/-- Render each expression of a list to exactly one line
(`self.visit(arg).one()` mapped over a list). -/
def visitEach : ExprList → Except String (List String)
  | .nil => .ok []
  | .cons hd tl => do
      let s ← one (← visitExpr hd)
      let rest ← visitEach tl
      .ok (s :: rest)
end

/-- Character membership in a string (Python `c in s` for a one-character
needle), via the underlying character list so that it reduces definitionally. -/
def strHasChar (s : String) (c : Char) : Bool := s.data.contains c

/-- Python `s.startswith(pre)`, via the underlying character lists. -/
def strStarts (s pre : String) : Bool := pre.data.isPrefixOf s.data

/-- Python `int(s)` on a plain digit string (the only shape arising from the
`Array<num>` type-marker names), `none` otherwise. -/
def strDigits? (s : String) : Option Nat :=
  if s.data ≠ [] ∧ s.data.all Char.isDigit then
    some (s.data.foldl (fun a c => a * 10 + (c.toNat - 48)) 0)
  else none

/-- interface.py `snake_case`: lower-case every character, inserting an
underscore before each upper-case character except a leading one. -/
def snake_case (s : String) : String :=
  (s.data.foldl (fun (acc : String × Bool) c =>
    let lower := c.toLower
    if c ≠ lower then
      if acc.2 then (acc.1 ++ String.singleton lower, false)
      else (acc.1 ++ "_" ++ String.singleton lower, false)
    else (acc.1 ++ String.singleton lower, acc.2)) ("", true)).1

/-- parse.py `is_var_decl` capitalization heuristic:
`len(func_name) > 0 and func_name[0].isupper()`. -/
def capitalizedName (fn : String) : Bool :=
  match fn.data with
  | [] => false
  | c :: _ => c.isUpper

/-- parse.py `GlslVisitor.is_var_decl`: the target must be a bare name not
starting with `gl_` and the value a call; then the callee name must be a known
GLSL type or capitalized. A call whose callee is not a bare name makes the
Python code raise `AttributeError` when reading `node.value.func.id`. -/
def is_var_decl (target : Expr) (value : Expr) : Except String Bool :=
  match target, value with
  | .name tid, .call f _ _ =>
      if strStarts tid "gl_" then .ok false
      else
        match f with
        | .name fn => .ok (GLSL_BUILTIN_TYPES.contains fn || capitalizedName fn)
        | _ => .error "AttributeError: Call.func object has no attribute id"
  | _, _ => .ok false

/-- types.py `ArraySpec.from_ast_node`: a `Subscript` whose value is a name
`Array<num>` and whose slice is a name gives `(element_type, length)`.
The numeric suffix is parsed as Python `int(...)` does on a digit string. -/
def arraySpecFromNode : Expr → Option (String × Nat)
  | .subscript (.name nm) (.name gtype) =>
      if strStarts nm "Array" then
        match strDigits? (nm.drop 5) with
        | some num => some (gtype, num)
        | none => none
      else none
  | _ => none

/-- parse.py `GlslVisitor.get_array_decl`: emit `<type> <target>[<len>]` when
the assigned value is an array-spec subscript, `none` otherwise. -/
def get_array_decl (target : Expr) (value : Expr) : Except String (Option String) :=
  match arraySpecFromNode value with
  | none => .ok none
  | some (t, n) => do
      let ts ← one (← visitExpr target)
      .ok (some (t ++ " " ++ ts ++ "[" ++ toString n ++ "]"))

/-- parse.py `GlslVisitor.make_var_decl`: `<callee> <target> = <rendered rhs>`.
Only reached when `is_var_decl` returned true, so the callee is a bare name. -/
def make_var_decl (target : Expr) (value : Expr) : Except String (List String) :=
  match value with
  | .call (.name fn) _ _ => do
      let ts ← one (← visitExpr target)
      let vs ← one (← visitExpr value)
      .ok [fn ++ " " ++ ts ++ " = " ++ vs]
  | _ => .error "AttributeError: Call.func object has no attribute id"

/-- Last character of a string, if any. -/
def lastChar (s : String) : Option Char := s.data.getLast?

/-- parse.py `GlslCode.append_block` applied to one line: prepend the GLSL
indent and terminate with `;` unless the line already ends in `;`, `{` or `}`.
(Python indexes `line[-1]`; every generated line is nonempty.) -/
def terminateLine (line : String) : String :=
  let l := GLSL_INDENT ++ line
  match lastChar l with
  | some c => if GLSL_STATEMENT_TERMINATORS.contains c then l else l ++ ";"
  | none => l ++ ";"

/-- parse.py `GlslCode.append_block`: the lines appended for one child block. -/
def appendBlock (child : List String) : List String := child.map terminateLine

/-- parse.py range-argument dispatch shared by `visit_For` and
`_handle_list_comp_assign`: 1 to 3 arguments give (start?, end, step?) with
missing start/step defaulting to the literal texts `0` / `1`. -/
def parseRangeArgs (args : ExprList) :
    Except String (Option Expr × Expr × Option Expr) :=
  match args with
  | .cons e .nil => .ok (none, e, none)
  | .cons s (.cons e .nil) => .ok (some s, e, none)
  | .cons s (.cons e (.cons st .nil)) => .ok (some s, e, some st)
  | _ => .error "range() requires 1-3 arguments"

/-- Render an optional range bound, using the given default literal text for a
missing argument. -/
def renderBound (dflt : String) : Option Expr → Except String String
  | none => .ok dflt
  | some e => do one (← visitExpr e)

/-- The error message of `_handle_list_comp_assign` when a bound cannot be
evaluated at transpile time (parse.py, the bare `except` branch). -/
def compBoundsMsg : String :=
  "List comprehension size must be computable at transpile time. Use constant range() arguments."

/-- Models Python `int(eval(text))` on the rendered text of a range bound, for
the fragment of compile-time integer constants: integer literals and unary
plus/minus of them evaluate to their value; every other expression (names,
attributes, calls, ...) is not compile-time computable here and yields `none`
(in Python, `eval` raising is caught and converted to the hard error). -/
def evalBound : Expr → Option Int
  | .const (.intC n) => some n
  | .unaryop .usub e => (evalBound e).map (fun n => -n)
  | .unaryop .uadd e => evalBound e
  | _ => none

/-- Evaluate an optional bound with a default value, raising the
compile-time-computability error when evaluation fails. -/
def evalBoundOr (dflt : Int) : Option Expr → Except String Int
  | none => .ok dflt
  | some e =>
      match evalBound e with
      | some n => .ok n
      | none => .error compBoundsMsg

/-- parse.py `GlslVisitor._handle_list_comp_assign`: unroll a bounded list
comprehension into an array declaration plus an initialization loop. -/
def handle_list_comp_assign (target : Expr) (elt : Expr) (gens : CompList) :
    Except String (List String) :=
  match target with
  | .name var_name =>
    match gens with
    | .cons gtarget giter gifs .nil =>
      match giter with
      | .call (.name "range") rargs _ =>
        match gtarget with
        | .name loop_var => do
          let (sE, eE, stE) ← parseRangeArgs rargs
          let startS ← renderBound "0" sE
          let endS ← one (← visitExpr eE)
          let stepS ← renderBound "1" stE
          let startv ← evalBoundOr 0 sE
          let endv ←
            match evalBound eE with
            | some n => pure n
            | none => Except.error compBoundsMsg
          let stepv ← if stepS = "1" then pure (1 : Int) else evalBoundOr 1 stE
          let size : Int ←
            if stepv = 1 then pure (endv - startv)
            else if stepv = 0 then Except.error compBoundsMsg
            else pure (Int.fdiv (endv - startv + stepv - 1) stepv)
          let elem_expr ← one (← visitExpr elt)
          let elem_type := if strHasChar elem_expr '.' then "float" else "int"
          let decl := elem_type ++ " " ++ var_name ++ "[" ++ toString size ++ "]"
          let header :=
            if stepS = "1" then
              "for (int " ++ loop_var ++ " = " ++ startS ++ "; " ++ loop_var ++
                " < " ++ endS ++ "; " ++ loop_var ++ "++) " ++ lbrace
            else
              "for (int " ++ loop_var ++ " = " ++ startS ++ "; " ++ loop_var ++
                " < " ++ endS ++ "; " ++ loop_var ++ " += " ++ stepS ++ ") " ++ lbrace
          let slot := var_name ++ "[" ++ loop_var ++ "] = " ++ elem_expr
          match gifs with
          | .cons c _ => do
              let cond ← one (← visitExpr c)
              .ok ([decl, header] ++
                   appendBlock ["if (" ++ cond ++ ") " ++ lbrace] ++
                   appendBlock ["    " ++ slot] ++
                   appendBlock [rbrace] ++ [rbrace])
          | .nil =>
              .ok ([decl, header] ++ appendBlock [slot] ++ [rbrace])
        | _ => .error "List comprehension loop variable must be a simple name"
      | _ => .error "List comprehensions only support iteration of the form: for x in range(...)"
    | _ => .error "List comprehensions with multiple for clauses are not supported"
  | _ => .error "list comprehensions can only be assigned to simple variables"

/-- parse.py array-literal branch of `visit_Assign`: the target must be a bare
name, the literal non-empty; the element type is `float` when any rendered
element contains a decimal point, else `int`. -/
def arrayLiteralAssign (target : Expr) (elts : ExprList) : Except String (List String) :=
  match target with
  | .name var_name =>
    match elts with
    | .nil => .error "empty array literals are not supported in GLSL"
    | .cons first _ => do
        let _elemCode ← one (← visitExpr first)
        let rendered ← visitEach elts
        let elem_type := if rendered.any (fun s => strHasChar s '.') then "float" else "int"
        let n := elts.length
        .ok [elem_type ++ " " ++ var_name ++ "[" ++ toString n ++ "] = " ++
             elem_type ++ "[" ++ toString n ++ "](" ++
             String.intercalate ", " rendered ++ ")"]
  | _ => .error "array literals can only be assigned to simple variables"

/-- parse.py `GlslVisitor.visit_Assign` (with `visit_NoDeclAssign` being the
`allowDecl = false` entry point): dispatch to the list-comprehension branch,
the array-literal branch, a typed declaration, an array-spec declaration, or a
plain assignment, in that order. -/
def visit_Assign (allowDecl : Bool) (targets : ExprList) (value : Expr) :
    Except String (List String) :=
  match targets with
  | .cons target .nil =>
    match allowDecl, value with
    | true, .listComp elt gens => handle_list_comp_assign target elt gens
    | true, .listLit elts => arrayLiteralAssign target elts
    | _, _ => do
        let decl ← if allowDecl then is_var_decl target value else pure false
        if decl then make_var_decl target value
        else do
          match ← get_array_decl target value with
          | some line => .ok [line]
          | none => do
              let ts ← one (← visitExpr target)
              let vs ← one (← visitExpr value)
              .ok [ts ++ " = " ++ vs]
  | _ => .error "multiple assignment targets not allowed"

mutual
/-- Python statement AST nodes handled by `GlslVisitor` (parse.py).
`noDeclAssign` is the `NoDeclAssign` marker subclass from stage.py. -/
inductive Stmt where
  | assign (targets : ExprList) (value : Expr)
  | noDeclAssign (targets : ExprList) (value : Expr)
  | augAssign (target : Expr) (op : BinOpK) (value : Expr)
  | ret (value : Expr)
  | exprS (value : Expr)
  | ifS (test : Expr) (body orelse : StmtList)
  | forS (target : Expr) (iter : Expr) (body : StmtList)
  | whileS (test : Expr) (body : StmtList)
  | breakS
  | continueS
  | passS

/-- A list of statements (a suite/body). -/
inductive StmtList where
  | nil
  | cons (hd : Stmt) (tl : StmtList)
end

mutual
/-- parse.py `GlslVisitor.visit` on statements: the `GlslCode.lines` produced
for a statement node, or the raised exception. Mirrors `visit_Assign`,
`visit_NoDeclAssign`, `visit_AugAssign`, `visit_Return`, `visit_Expr`,
`visit_If`, `visit_For`, `visit_While`, `visit_Break`, `visit_Continue`
and `visit_Pass`. -/
def visitStmt : Stmt → Except String (List String)
  | .assign targets value => visit_Assign true targets value
  | .noDeclAssign targets value => visit_Assign false targets value
  | .augAssign t op v => do
      let ts ← one (← visitExpr t)
      let vs ← one (← visitExpr v)
      .ok [ts ++ " " ++ binOpSymbol op ++ "= " ++ vs]
  | .ret v => do
      let s ← one (← visitExpr v)
      .ok ["return " ++ s]
  | .exprS v => visitExpr v
  | .ifS test body orelse => do
      let ts ← one (← visitExpr test)
      let bs ← visitBlocks body
      match orelse with
      | .nil => .ok (("if (" ++ ts ++ ") " ++ lbrace) :: bs ++ [rbrace])
      | _ => do
          let os ← visitBlocks orelse
          .ok (("if (" ++ ts ++ ") " ++ lbrace) :: bs ++
               [rbrace ++ " else " ++ lbrace] ++ os ++ [rbrace])
  | .forS target iter body =>
      match target with
      | .name _ =>
        match iter with
        | .call (.name fid) rargs _ =>
            if fid = "range" then do
              let (sE, eE, stE) ← parseRangeArgs rargs
              let startS ← renderBound "0" sE
              let endS ← one (← visitExpr eE)
              let stepS ← renderBound "1" stE
              let var ← one (← visitExpr target)
              let header :=
                if stepS = "1" then
                  "for (int " ++ var ++ " = " ++ startS ++ "; " ++ var ++
                    " < " ++ endS ++ "; " ++ var ++ "++) " ++ lbrace
                else
                  "for (int " ++ var ++ " = " ++ startS ++ "; " ++ var ++
                    " < " ++ endS ++ "; " ++ var ++ " += " ++ stepS ++ ") " ++ lbrace
              let bs ← visitBlocks body
              .ok (header :: bs ++ [rbrace])
            else .error "only range() for loops are supported"
        | .call _ _ _ => .error "AttributeError: Call.func object has no attribute id"
        | _ => .error "only range() for loops are supported"
      | _ => .error "for-loop target must be an ast.Name"
  | .whileS test body => do
      let ts ← one (← visitExpr test)
      let bs ← visitBlocks body
      .ok (("while (" ++ ts ++ ") " ++ lbrace) :: bs ++ [rbrace])
  | .breakS => .ok ["break"]
  | .continueS => .ok ["continue"]
  | .passS => .ok []

/-- The accumulated lines of `code.append_block(self.visit(child))` mapped
over a statement suite. -/
def visitBlocks : StmtList → Except String (List String)
  | .nil => .ok []
  | .cons hd tl => do
      let c ← visitStmt hd
      let rest ← visitBlocks tl
      .ok (appendBlock c ++ rest)
end

/-- Python `str.isspace` characters relevant to source lines (ASCII whitespace:
space, tab, newline, carriage return, vertical tab, form feed). -/
def pyIsSpace (c : Char) : Bool :=
  c == ' ' || c == '\t' || c == '\n' || c == '\r' ||
  c == Char.ofNat 11 || c == Char.ofNat 12

/-- parse.py `dedent`: the de-indent width `strip_len`, computed as
`len(lines[0]) - len(lines[0].lstrip())`. -/
def stripLen (l0 : List Char) : Nat := l0.length - (l0.dropWhile pyIsSpace).length

/-- The per-line loop of parse.py `dedent`: raise when `line[:strip_len]`
contains a non-whitespace character, else yield `line[strip_len:]`. -/
def dedentGo (w : Nat) : List (List Char) → Except String (List (List Char))
  | [] => .ok []
  | l :: rest =>
      if ((l.take w).filter (fun c => !(pyIsSpace c))) ≠ [] then
        .error ("less indentation than first line: " ++ String.mk l)
      else do
        let r ← dedentGo w rest
        .ok (l.drop w :: r)

/-- parse.py `dedent`: de-indent based on the first line's indentation. Lines
are lists of characters; an empty input yields no lines. -/
def dedent (lines : List (List Char)) : Except String (List (List Char)) :=
  match lines with
  | [] => .ok []
  | l0 :: _ => dedentGo (stripLen l0) lines

/-- interface.py `GlslVar`: a GLSL variable declaration or block member. -/
structure GlslVar where
  name : String
  gtype : String
  interpolation : Option String := none
  deriving DecidableEq

/-- interface.py `_gdecl`: join the non-`None` parts with spaces and terminate
with a semicolon. -/
def gdecl (parts : List (Option String)) : String :=
  String.intercalate " " (parts.filterMap id) ++ ";"

/-- interface.py `location_str`. -/
def location_str : Option Nat → Option String
  | none => none
  | some l => some ("layout(location=" ++ toString l ++ ")")

/-- interface.py `GlslVar.declare`. -/
def GlslVar.declare (v : GlslVar) : String :=
  gdecl [v.interpolation, some v.gtype, some v.name]

/-- interface.py `GlslVar.declare_uniform`. -/
def GlslVar.declare_uniform (v : GlslVar) : String :=
  gdecl [some "uniform", some v.gtype, some v.name]

/-- interface.py `GlslVar.declare_attribute`. -/
def GlslVar.declare_attribute (v : GlslVar) (location : Option Nat) : String :=
  gdecl [location_str location, v.interpolation, some "in", some v.gtype, some v.name]

/-- interface.py `GlslVar.declare_output`. -/
def GlslVar.declare_output (v : GlslVar) (location : Option Nat) : String :=
  gdecl [v.interpolation, location_str location, some "out", some v.gtype, some v.name]

/-- One `member = TypeMarker(...)` assignment of a schema class body, as seen
by `ShaderInterface.get_vars` (interface.py). -/
structure ClsAssign where
  target : Expr
  value : Expr

/-- interface.py `ShaderInterface.get_vars`: walk the schema class body in
order; `gl_`-prefixed member names are skipped; each remaining member must be
a constructor call, its callee name is the member type, and a single
positional argument is the interpolation qualifier name. -/
def get_vars : List ClsAssign → Except String (List GlslVar)
  | [] => .ok []
  | item :: rest =>
      match item.target with
      | .name nm =>
          if strStarts nm "gl_" then get_vars rest
          else
            match item.value with
            | .call f args _ =>
                match f with
                | .name gtype => do
                    let interp ←
                      match args with
                      | .cons a .nil =>
                          match a with
                          | .name iid => pure (some iid)
                          | _ => Except.error "AttributeError: interpolation argument has no attribute id"
                      | _ => pure (none : Option String)
                    let r ← get_vars rest
                    .ok (⟨nm, gtype, interp⟩ :: r)
                | _ => .error "AttributeError: Call.func object has no attribute id"
            | _ => .error "member is not a constructor"
      | _ => .error "AttributeError: target object has no attribute id"

/-- The location-counting loop of `AttributeBlock.declare_input_block`
(interface.py): one `declare_attribute(location)` per member, starting at the
given location and incrementing by one. -/
def attrDeclLoop : List GlslVar → Nat → List String
  | [], _ => []
  | m :: rest, loc => m.declare_attribute (some loc) :: attrDeclLoop rest (loc + 1)

/-- interface.py `AttributeBlock.declare_input_block`: attribute arrays are
unsupported; members are declared individually with auto-incremented
locations starting at 0. -/
def attributeBlockDeclareInput (members : List ClsAssign) (array : Option Bool) :
    Except String (List String) :=
  match array with
  | some _ => .error "attribute arrays not implemented"
  | none => do
      let vs ← get_vars members
      .ok (attrDeclLoop vs 0)

/-- The location-counting loop of
`FragmentShaderOutputBlock.declare_output_block` (interface.py). -/
def fsOutDeclLoop : List GlslVar → Nat → List String
  | [], _ => []
  | m :: rest, loc => m.declare_output (some loc) :: fsOutDeclLoop rest (loc + 1)

/-- interface.py `FragmentShaderOutputBlock.declare_output_block`: output
arrays are unsupported; members are declared individually with
auto-incremented locations starting at 0. -/
def fragmentOutputDeclareOutput (members : List ClsAssign) (array : Option Bool) :
    Except String (List String) :=
  match array with
  | some _ => .error "fs output arrays not implemented"
  | none => do
      let vs ← get_vars members
      .ok (fsOutDeclLoop vs 0)

/-- The keyword loop of stage.py `kwargs_as_assignments`: a `gl_`-prefixed
keyword targets the built-in name directly, any other keyword targets
`<parent>.<keyword>`; each yields a `NoDeclAssign`. -/
def kwAssignList (parent : Expr) : KwList → List Stmt
  | .nil => []
  | .cons arg value tl =>
      (if strStarts arg "gl_" then
        Stmt.noDeclAssign (ExprList.cons (.name arg) .nil) value
      else
        Stmt.noDeclAssign (ExprList.cons (.attr parent arg) .nil) value)
      :: kwAssignList parent tl

/-- stage.py `kwargs_as_assignments`: the node must be a call; positional
arguments are rejected; keywords become `NoDeclAssign` statements in keyword
order. -/
def kwargs_as_assignments (node : Expr) (parent : Expr) : Except String (List Stmt) :=
  match node with
  | .call _ args kws =>
      match args with
      | .nil => .ok (kwAssignList parent kws)
      | _ => .error "positional args not allowed"
  | _ => .error "node must be an ast.Call"

/-- stage.py `_RewriteReturn.visit_Return` composed with
`ShaderInterface.instance_name`: a `return Output(...)` statement is replaced
by the keyword assignments, with the parent instance being the snake-cased
interface class name. -/
def rewriteReturnStmt (interfaceName : String) (returnValue : Expr) :
    Except String (List Stmt) :=
  kwargs_as_assignments returnValue (.name (snake_case interfaceName))

mutual
/-- Statement shape used by the Multi-Return Flattener model: a `return`
statement (carrying its expression's text), the introduced temporary
declaration, an assignment to the temporary, any other simple statement, and
an `if`/`else` with nested suites. -/
inductive FStmt where
  | retS (e : String)
  | tempDeclS
  | tempAssignS (e : String)
  | otherS
  | ifS (body orelse : FStmtList)

/-- A list of flattener statements. -/
inductive FStmtList where
  | nil
  | cons (hd : FStmt) (tl : FStmtList)
end

/-- Concatenation of flattener statement lists. -/
def FStmtList.append : FStmtList → FStmtList → FStmtList
  | .nil, ys => ys
  | .cons x xs, ys => .cons x (xs.append ys)

mutual
/-- Number of `return` statements in a flattener statement. -/
def countRet : FStmt → Nat
  | .retS _ => 1
  | .tempDeclS => 0
  | .tempAssignS _ => 0
  | .otherS => 0
  | .ifS b o => countRetL b + countRetL o

/-- Number of `return` statements in a suite. -/
def countRetL : FStmtList → Nat
  | .nil => 0
  | .cons hd tl => countRet hd + countRetL tl
end

mutual
/-- Number of temporary declarations in a flattener statement. -/
def countTemp : FStmt → Nat
  | .retS _ => 0
  | .tempDeclS => 1
  | .tempAssignS _ => 0
  | .otherS => 0
  | .ifS b o => countTempL b + countTempL o

/-- Number of temporary declarations in a suite. -/
def countTempL : FStmtList → Nat
  | .nil => 0
  | .cons hd tl => countTemp hd + countTempL tl
end

mutual
/-- Number of assignments to the temporary in a flattener statement. -/
def countTempAssign : FStmt → Nat
  | .retS _ => 0
  | .tempDeclS => 0
  | .tempAssignS _ => 1
  | .otherS => 0
  | .ifS b o => countTempAssignL b + countTempAssignL o

/-- Number of assignments to the temporary in a suite. -/
def countTempAssignL : FStmtList → Nat
  | .nil => 0
  | .cons hd tl => countTempAssign hd + countTempAssignL tl
end

mutual
/-- Modelled from the spec: the rewrite step of the Multi-Return Flattener
(the `MultipleReturnTransformer` of parse.py is absent from the sources
provided, only its tests remain): every `return <expr>` becomes
`temp = <expr>`, recursively through nested suites. -/
def rewriteF : FStmt → FStmt
  | .retS e => .tempAssignS e
  | .tempDeclS => .tempDeclS
  | .tempAssignS e => .tempAssignS e
  | .otherS => .otherS
  | .ifS b o => .ifS (rewriteFL b) (rewriteFL o)

/-- Modelled from the spec: the rewrite step mapped over a suite. -/
def rewriteFL : FStmtList → FStmtList
  | .nil => .nil
  | .cons hd tl => .cons (rewriteF hd) (rewriteFL tl)
end

/-- Modelled from the spec: the Multi-Return Flattener
(`MultipleReturnTransformer`, absent from the provided sources). A body with
zero or one `return` statements is left untouched; otherwise a single
temporary declaration is introduced at function entry, every `return <expr>`
is rewritten to an assignment to the temporary, and exactly one trailing
`return temp` is appended. -/
def flattenReturns (body : FStmtList) : FStmtList :=
  if countRetL body ≤ 1 then body
  else .cons .tempDeclS ((rewriteFL body).append (.cons (.retS "_return_value") .nil))

/-- Mathematical ceiling of the integer division `a / b` (for `b ≠ 0`),
expressed through floor division. -/
def ceilDivI (a b : Int) : Int := -(Int.fdiv (-a) b)

/-- The canonical C-style loop header described by the spec: counted loop from
`start` (inclusive) to `end` (exclusive), with `v++` increment when the step
literal is `1` and `v += step` otherwise. -/
def forHeaderSpec (v s e st : String) : String :=
  if st = "1" then
    "for (int " ++ v ++ " = " ++ s ++ "; " ++ v ++ " < " ++ e ++ "; " ++ v ++ "++) " ++ lbrace
  else
    "for (int " ++ v ++ " = " ++ s ++ "; " ++ v ++ " < " ++ e ++ "; " ++ v ++ " += " ++ st ++ ") " ++ lbrace

/-- The assignments the spec prescribes for the single-stage Return Rewriter:
one per keyword argument in order, a `gl_`-prefixed key writing the built-in
name directly and any other key writing `<instance>.<field>`. -/
def kwTargetsSpec (inst : String) : KwList → List Stmt
  | .nil => []
  | .cons k v tl =>
      Stmt.noDeclAssign
        (ExprList.cons (if strStarts k "gl_" then Expr.name k else Expr.attr (.name inst) k) .nil)
        v :: kwTargetsSpec inst tl

/-- Whether an expression is an `ast.Call` node. -/
def isCallE : Expr → Bool
  | .call _ _ _ => true
  | _ => false

/-- Whether an expression is an `ast.List` literal node. -/
def isListLitE : Expr → Bool
  | .listLit _ => true
  | _ => false

/-- Whether an expression is an `ast.ListComp` node. -/
def isListCompE : Expr → Bool
  | .listComp _ _ => true
  | _ => false

/-- Whether an expression is a `range(...)` call (iterable shape accepted by
`visit_For`). -/
def isRangeCall : Expr → Bool
  | .call (.name "range") _ _ => true
  | _ => false

/-- Length of a line's leading-whitespace run. -/
def leadWsRun (l : List Char) : Nat := (l.takeWhile pyIsSpace).length

/-!  Helper lemmas. -/

theorem fdiv_ceil_eq (a st : Int) (h : 1 ≤ st) :
    Int.fdiv (a + st - 1) st = ceilDivI a st := by
  unfold ceilDivI
  rw [Int.fdiv_eq_ediv _ (by omega), Int.fdiv_eq_ediv _ (by omega)]
  have hlt : (0:Int) < st := by omega
  have hu := Int.ediv_add_emod (-a) st
  have hm1 : 0 ≤ (-a) % st := Int.emod_nonneg _ (by omega)
  have hm2 : (-a) % st < st := Int.emod_lt_of_pos _ hlt
  have key := (Int.ediv_emod_unique (a := a + st - 1)
      (q := -((-a) / st)) (r := st - 1 - ((-a) % st)) hlt).mpr
      ⟨by linarith, by omega, by omega⟩
  exact key.1

theorem ceilDivI_one (a : Int) : ceilDivI a 1 = a := by
  unfold ceilDivI
  rw [Int.fdiv_eq_ediv _ (by omega)]
  simp

theorem toDigitsCore_len_ge (b : Nat) : ∀ (f n : Nat) (ds : List Char),
    ds.length ≤ (Nat.toDigitsCore b f n ds).length := by
  intro f
  induction f with
  | zero => intro n ds; simp [Nat.toDigitsCore]
  | succ f ih =>
      intro n ds
      simp only [Nat.toDigitsCore]
      by_cases h : n / b = 0
      · simp [h]
      · simp only [h, if_false]
        calc ds.length ≤ (Nat.digitChar (n % b) :: ds).length := by simp
          _ ≤ _ := ih _ _

theorem toDigitsCore_len_succ (b f n : Nat) (ds : List Char) (hf : 1 ≤ f) :
    ds.length + 1 ≤ (Nat.toDigitsCore b f n ds).length := by
  cases f with
  | zero => omega
  | succ f =>
      simp only [Nat.toDigitsCore]
      by_cases h : n / b = 0
      · simp [h]
      · simp only [h, if_false]
        calc ds.length + 1 = (Nat.digitChar (n % b) :: ds).length := by simp
          _ ≤ _ := toDigitsCore_len_ge b f _ _

theorem nat_repr_eq_one (m : Nat) (h : Nat.repr m = "1") : m = 1 := by
  by_cases hm : m < 10
  · interval_cases m <;> revert h <;> decide
  · exfalso
    have hlen : (Nat.repr m).length = 1 := by rw [h]; rfl
    have h2le : 2 ≤ (Nat.repr m).length := by
      unfold Nat.repr Nat.toDigits
      have hd : m / 10 ≠ 0 := by
        intro hc
        have := Nat.div_eq_zero_iff (by norm_num : 0 < 10) |>.mp hc
        omega
      simp only [Nat.toDigitsCore, hd, if_false]
      have hlow := toDigitsCore_len_succ 10 m (m / 10) [Nat.digitChar (m % 10)] (by omega)
      have hconv : (List.asString (Nat.toDigitsCore 10 m (m / 10) [Nat.digitChar (m % 10)])).length
          = (Nat.toDigitsCore 10 m (m / 10) [Nat.digitChar (m % 10)]).length := rfl
      rw [hconv]
      simpa using hlow
    omega

theorem int_toString_eq_one (st : Int) (h : toString st = "1") : st = 1 := by
  cases st with
  | ofNat m =>
      have hm : Nat.repr m = "1" := h
      rw [nat_repr_eq_one m hm]
      rfl
  | negSucc m =>
      exfalso
      have hd : ("-" ++ Nat.repr (m+1)).data = ("1" : String).data := congrArg String.data h
      simp [String.data_append] at hd

theorem exbind_ok {α β : Type} (a : α) (f : α → Except String β) :
    (Except.ok a >>= f) = f a := rfl

theorem exbind_err {α β : Type} (m : String) (f : α → Except String β) :
    ((Except.error m : Except String α) >>= f) = .error m := rfl

/-!  Claim theorems. -/

/-- C5 counterexample: the claim says the null literal emits no output at all,
but `visit_Constant` emits the single line `null` for the `None` constant
(parse.py line 368). -/
theorem C5_counterexample :
    visit_Constant PyConst.noneC = ["null"] ∧
    visit_Constant PyConst.noneC ≠ ([] : List String) := by
  exact ⟨rfl, by decide⟩

/-- C5 (amended): a boolean literal emits exactly `true` or `false`, a numeric
literal emits its `str(value)` text, a string literal emits no output, and the
null literal emits the single token `null` (it is not dropped). -/
theorem C5_literal_constants :
    visit_Constant (.boolC true) = ["true"] ∧
    visit_Constant (.boolC false) = ["false"] ∧
    (∀ n : Int, visit_Constant (.intC n) = [toString n]) ∧
    (∀ r : String, visit_Constant (.floatC r) = [r]) ∧
    (∀ s : String, visit_Constant (.strC s) = []) ∧
    visit_Constant .noneC = ["null"] :=
  ⟨rfl, rfl, fun _ => rfl, fun _ => rfl, fun _ => rfl, rfl⟩

/-- C10: a binary arithmetic/bitwise operation emits exactly
`(<left> <op> <right>)` with surrounding parentheses, while comparison and
unary expressions are emitted without surrounding parentheses. -/
theorem C10_paren_emission (l r : Expr) (opB : BinOpK) (opC : CmpOpK) (opU : UnOpK)
    (ls rs : String) (hl : visitExpr l = .ok [ls]) (hr : visitExpr r = .ok [rs]) :
    visitExpr (.binop l opB r) = .ok ["(" ++ ls ++ " " ++ binOpSymbol opB ++ " " ++ rs ++ ")"] ∧
    visitExpr (.compare l opC r) = .ok [ls ++ " " ++ cmpOpSymbol opC ++ " " ++ rs] ∧
    visitExpr (.unaryop opU l) = .ok [unOpSymbol opU ++ ls] := by
  refine ⟨?_, ?_, ?_⟩ <;> (simp only [visitExpr, hl, hr]; rfl)

/-- C10 witness at concrete inputs. -/
theorem C10_paren_emission_witness :
    visitExpr (.binop (.name "a") .add (.name "b")) = .ok ["(a + b)"] ∧
    visitExpr (.compare (.name "a") .lt (.name "b")) = .ok ["a < b"] ∧
    visitExpr (.unaryop .usub (.name "a")) = .ok ["-a"] :=
  C10_paren_emission (.name "a") (.name "b") .add .lt .usub "a" "b" rfl rfl

theorem kwAssignList_spec (inst : String) :
    ∀ kws : KwList, kwAssignList (.name inst) kws = kwTargetsSpec inst kws
  | .nil => rfl
  | .cons k v tl => by
      simp only [kwAssignList, kwTargetsSpec, kwAssignList_spec inst tl]
      by_cases h : strStarts k "gl_" <;> simp [h]

/-- C9: the single-stage Return Rewriter turns `return Output(field=value, ...)`
into one assignment per keyword argument in keyword order — a `gl_`-prefixed
key assigns the built-in name directly, any other key assigns
`<block_instance>.<field>` with the snake-cased output block name as the
instance — and a positional argument to the output constructor is an error. -/
theorem C9_return_rewriter (clsName : String) (f : Expr) (kws : KwList)
    (args : ExprList) (hargs : args ≠ .nil) :
    rewriteReturnStmt clsName (.call f .nil kws) =
      .ok (kwTargetsSpec (snake_case clsName) kws) ∧
    rewriteReturnStmt clsName (.call f args kws) =
      .error "positional args not allowed" := by
  constructor
  · simp only [rewriteReturnStmt, kwargs_as_assignments]
    rw [kwAssignList_spec]
  · cases args with
    | nil => exact absurd rfl hargs
    | cons a tl => rfl

/-- C9 witness: a two-keyword output on class `VsOut` (instance `vs_out`), and
a rejected positional argument. -/
theorem C9_return_rewriter_witness :
    rewriteReturnStmt "VsOut" (.call (.name "VsOut") .nil
        (.cons "gl_position" (.name "p") (.cons "color" (.name "c") .nil))) =
      .ok [Stmt.noDeclAssign (ExprList.cons (.name "gl_position") .nil) (.name "p"),
           Stmt.noDeclAssign (ExprList.cons (.attr (.name "vs_out") "color") .nil) (.name "c")] ∧
    rewriteReturnStmt "VsOut" (.call (.name "VsOut") (.cons (.name "x") .nil)
        (.cons "color" (.name "c") .nil)) =
      .error "positional args not allowed" :=
  ⟨(C9_return_rewriter "VsOut" (.name "VsOut")
      (.cons "gl_position" (.name "p") (.cons "color" (.name "c") .nil))
      (.cons (.name "x") .nil) (fun h => ExprList.noConfusion h)).1,
   (C9_return_rewriter "VsOut" (.name "VsOut")
      (.cons "color" (.name "c") .nil)
      (.cons (.name "x") .nil) (fun h => ExprList.noConfusion h)).2⟩

theorem attrDeclLoop_length (vs : List GlslVar) : ∀ k, (attrDeclLoop vs k).length = vs.length := by
  induction vs with
  | nil => intro k; rfl
  | cons hd tl ih => intro k; simp [attrDeclLoop, ih]

theorem fsOutDeclLoop_length (vs : List GlslVar) : ∀ k, (fsOutDeclLoop vs k).length = vs.length := by
  induction vs with
  | nil => intro k; rfl
  | cons hd tl ih => intro k; simp [fsOutDeclLoop, ih]

theorem attrDeclLoop_get (vs : List GlslVar) : ∀ (k i : Nat),
    (attrDeclLoop vs k).get? i =
      (vs.get? i).map (fun v => v.declare_attribute (some (k + i))) := by
  induction vs with
  | nil => intro k i; simp [attrDeclLoop]
  | cons hd tl ih =>
      intro k i
      cases i with
      | zero => simp [attrDeclLoop]
      | succ n =>
          simp only [attrDeclLoop, List.get?]
          rw [ih (k+1) n]
          have he : k + 1 + n = k + (n + 1) := by omega
          rw [he]

theorem fsOutDeclLoop_get (vs : List GlslVar) : ∀ (k i : Nat),
    (fsOutDeclLoop vs k).get? i =
      (vs.get? i).map (fun v => v.declare_output (some (k + i))) := by
  induction vs with
  | nil => intro k i; simp [fsOutDeclLoop]
  | cons hd tl ih =>
      intro k i
      cases i with
      | zero => simp [fsOutDeclLoop]
      | succ n =>
          simp only [fsOutDeclLoop, List.get?]
          rw [ih (k+1) n]
          have he : k + 1 + n = k + (n + 1) := by omega
          rw [he]

/-- C4: Attribute-block and FragmentOutput-block member declarations receive
`layout(location=N)` numbers exactly 0, 1, 2, ... in schema declaration order
(line `i` declares member `i` at location `i`, and the line counts match),
while `gl_`-prefixed members are skipped entirely by the schema walk and so
are excluded from the numbering and from the declarations. -/
theorem C4_locations (members : List ClsAssign) (vs : List GlslVar)
    (h : get_vars members = .ok vs) :
    (attributeBlockDeclareInput members none = .ok (attrDeclLoop vs 0) ∧
     (attrDeclLoop vs 0).length = vs.length ∧
     ∀ i, (attrDeclLoop vs 0).get? i =
       (vs.get? i).map (fun v => v.declare_attribute (some i))) ∧
    (fragmentOutputDeclareOutput members none = .ok (fsOutDeclLoop vs 0) ∧
     (fsOutDeclLoop vs 0).length = vs.length ∧
     ∀ i, (fsOutDeclLoop vs 0).get? i =
       (vs.get? i).map (fun v => v.declare_output (some i))) ∧
    (∀ (nm : String) (val : Expr) (rest : List ClsAssign), strStarts nm "gl_" = true →
       get_vars (⟨.name nm, val⟩ :: rest) = get_vars rest) := by
  refine ⟨⟨?_, attrDeclLoop_length vs 0, ?_⟩, ⟨?_, fsOutDeclLoop_length vs 0, ?_⟩, ?_⟩
  · simp only [attributeBlockDeclareInput, h]; rfl
  · intro i
    rw [attrDeclLoop_get vs 0 i]
    simp
  · simp only [fragmentOutputDeclareOutput, h]; rfl
  · intro i
    rw [fsOutDeclLoop_get vs 0 i]
    simp
  · intro nm val rest hgl
    simp [get_vars, hgl]

/-- C4 witness: a schema with a skipped `gl_position` built-in, a plain
`vec3 position` and a `flat`-qualified `vec4 color`. -/
theorem C4_locations_witness :
    attributeBlockDeclareInput
        [⟨.name "gl_position", .call (.name "vec4") .nil .nil⟩,
         ⟨.name "position", .call (.name "vec3") .nil .nil⟩,
         ⟨.name "color", .call (.name "vec4") (.cons (.name "flat") .nil) .nil⟩] none =
      .ok ["layout(location=0) in vec3 position;",
           "layout(location=1) flat in vec4 color;"] ∧
    fragmentOutputDeclareOutput
        [⟨.name "gl_position", .call (.name "vec4") .nil .nil⟩,
         ⟨.name "position", .call (.name "vec3") .nil .nil⟩,
         ⟨.name "color", .call (.name "vec4") (.cons (.name "flat") .nil) .nil⟩] none =
      .ok ["layout(location=0) out vec3 position;",
           "flat layout(location=1) out vec4 color;"] := by
  have h := C4_locations
      [⟨.name "gl_position", .call (.name "vec4") .nil .nil⟩,
       ⟨.name "position", .call (.name "vec3") .nil .nil⟩,
       ⟨.name "color", .call (.name "vec4") (.cons (.name "flat") .nil) .nil⟩]
      [⟨"position", "vec3", none⟩, ⟨"color", "vec4", some "flat"⟩] rfl
  exact ⟨h.1.1, h.2.1.1⟩

/-- C3: a `for` loop over `range(...)` with 1 to 3 arguments lowers to the
canonical C-style counted loop `for (int v = start; v < end; ...) {`, whose
increment is `v += step` exactly when the step's literal text differs from
`1` and `v++` otherwise; zero or more than three range arguments are an
error, and any non-`range(...)` iterable is a hard error. -/
theorem C3_for_lowering (v : String) (a1 a2 a3 : Expr) (s1 s2 s3 : String)
    (body : StmtList) (bs : List String)
    (h1 : visitExpr a1 = .ok [s1]) (h2 : visitExpr a2 = .ok [s2])
    (h3 : visitExpr a3 = .ok [s3]) (hb : visitBlocks body = .ok bs) :
    visitStmt (.forS (.name v) (.call (.name "range") (.cons a1 .nil) .nil) body) =
      .ok (forHeaderSpec v "0" s1 "1" :: bs ++ [rbrace]) ∧
    visitStmt (.forS (.name v) (.call (.name "range") (.cons a1 (.cons a2 .nil)) .nil) body) =
      .ok (forHeaderSpec v s1 s2 "1" :: bs ++ [rbrace]) ∧
    visitStmt (.forS (.name v)
        (.call (.name "range") (.cons a1 (.cons a2 (.cons a3 .nil))) .nil) body) =
      .ok (forHeaderSpec v s1 s2 s3 :: bs ++ [rbrace]) ∧
    visitStmt (.forS (.name v) (.call (.name "range") .nil .nil) body) =
      .error "range() requires 1-3 arguments" ∧
    visitStmt (.forS (.name v)
        (.call (.name "range") (.cons a1 (.cons a2 (.cons a3 (.cons a1 .nil)))) .nil) body) =
      .error "range() requires 1-3 arguments" ∧
    (∀ iter : Expr, isRangeCall iter = false →
       ∃ msg, visitStmt (.forS (.name v) iter body) = .error msg) := by
  refine ⟨?_, ?_, ?_, rfl, rfl, ?_⟩
  · simp [visitStmt, visitExpr, parseRangeArgs, renderBound, one, exbind_ok, h1, hb, forHeaderSpec]
  · simp [visitStmt, visitExpr, parseRangeArgs, renderBound, one, exbind_ok, h1, h2, hb, forHeaderSpec]
  · simp [visitStmt, visitExpr, parseRangeArgs, renderBound, one, exbind_ok, h1, h2, h3, hb, forHeaderSpec]
  · intro iter hi
    cases iter with
    | call f args kws =>
        cases f with
        | name fid =>
            by_cases hf : fid = "range"
            · rw [hf] at hi; simp [isRangeCall] at hi
            · refine ⟨"only range() for loops are supported", ?_⟩
              simp [visitStmt, hf]
        | attr fv fa => exact ⟨_, rfl⟩
        | call g gs gk => exact ⟨_, rfl⟩
        | const c => exact ⟨_, rfl⟩
        | binop bl op br => exact ⟨_, rfl⟩
        | unaryop op ue => exact ⟨_, rfl⟩
        | compare cl op cr => exact ⟨_, rfl⟩
        | subscript sv si => exact ⟨_, rfl⟩
        | listLit es => exact ⟨_, rfl⟩
        | listComp ce cg => exact ⟨_, rfl⟩
    | name id => exact ⟨_, rfl⟩
    | attr av aa => exact ⟨_, rfl⟩
    | const c => exact ⟨_, rfl⟩
    | binop bl op br => exact ⟨_, rfl⟩
    | unaryop op ue => exact ⟨_, rfl⟩
    | compare cl op cr => exact ⟨_, rfl⟩
    | subscript sv si => exact ⟨_, rfl⟩
    | listLit es => exact ⟨_, rfl⟩
    | listComp ce cg => exact ⟨_, rfl⟩

/-- C3 witness: `for i in range(0, n, 2)` lowers with `+=` increment, and a
plain-name iterable is rejected. -/
theorem C3_for_lowering_witness :
    visitStmt (.forS (.name "i") (.call (.name "range")
        (.cons (.const (.intC 0)) (.cons (.name "n") (.cons (.const (.intC 2)) .nil))) .nil)
        (.cons .breakS .nil)) =
      .ok ["for (int i = 0; i < n; i += 2) " ++ lbrace, "    break;", rbrace] ∧
    (∃ msg, visitStmt (.forS (.name "i") (.name "xs") (.cons .breakS .nil)) = .error msg) := by
  have h := C3_for_lowering "i" (.const (.intC 0)) (.name "n") (.const (.intC 2))
      "0" "n" "2" (.cons .breakS .nil) ["    break;"] rfl rfl rfl rfl
  exact ⟨h.2.2.1, h.2.2.2.2.2 (.name "xs") rfl⟩


theorem visitExpr_name (id : String) : visitExpr (.name id) = .ok [id] := rfl

theorem declLine_ne_plainLine (fn tid rv : String) :
    fn ++ " " ++ tid ++ " = " ++ rv ≠ tid ++ " = " ++ rv := by
  intro h
  have hlen := congrArg String.length h
  simp [String.length_append] at hlen
  exact absurd hlen.2 (by decide)

theorem C7_case_gl (tid fn : String) (args : ExprList) (kws : KwList) (rv : String)
    (hrv : visitExpr (.call (.name fn) args kws) = .ok [rv])
    (h1 : strStarts tid "gl_" = true) :
    visit_Assign true (.cons (.name tid) .nil) (.call (.name fn) args kws) =
      .ok [tid ++ " = " ++ rv] := by
  simp [visit_Assign, is_var_decl, h1, get_array_decl, arraySpecFromNode,
        exbind_ok, visitExpr_name, one, hrv]

theorem C7_case_decl (tid fn : String) (args : ExprList) (kws : KwList) (rv : String)
    (hrv : visitExpr (.call (.name fn) args kws) = .ok [rv])
    (h1 : strStarts tid "gl_" = false)
    (h2 : (GLSL_BUILTIN_TYPES.contains fn || capitalizedName fn) = true) :
    visit_Assign true (.cons (.name tid) .nil) (.call (.name fn) args kws) =
      .ok [fn ++ " " ++ tid ++ " = " ++ rv] := by
  have hd : is_var_decl (.name tid) (.call (.name fn) args kws) = .ok true := by
    simp only [is_var_decl, h1, Bool.false_eq_true, if_false, h2]
  simp [visit_Assign, hd, make_var_decl, exbind_ok, visitExpr_name, one, hrv]

theorem C7_case_notype (tid fn : String) (args : ExprList) (kws : KwList) (rv : String)
    (hrv : visitExpr (.call (.name fn) args kws) = .ok [rv])
    (h1 : strStarts tid "gl_" = false)
    (h2 : (GLSL_BUILTIN_TYPES.contains fn || capitalizedName fn) = false) :
    visit_Assign true (.cons (.name tid) .nil) (.call (.name fn) args kws) =
      .ok [tid ++ " = " ++ rv] := by
  have hd : is_var_decl (.name tid) (.call (.name fn) args kws) = .ok false := by
    simp only [is_var_decl, h1, Bool.false_eq_true, if_false, h2]
  simp [visit_Assign, hd, get_array_decl, arraySpecFromNode, exbind_ok, visitExpr_name, one, hrv]

theorem C7_plain_other (tgt val : Expr) (ts vs : String)
    (hts : visitExpr tgt = .ok [ts]) (hvs : visitExpr val = .ok [vs])
    (hc : isCallE val = false) (hl : isListLitE val = false)
    (hcm : isListCompE val = false) (ha : arraySpecFromNode val = none) :
    visit_Assign true (.cons tgt .nil) val = .ok [ts ++ " = " ++ vs] := by
  cases val with
  | call f as ks => simp [isCallE] at hc
  | listLit es => simp [isListLitE] at hl
  | listComp e g => simp [isListCompE] at hcm
  | name n =>
      simp [visit_Assign, is_var_decl, get_array_decl, arraySpecFromNode, exbind_ok, one, hts, hvs]
  | attr v a =>
      simp [visit_Assign, is_var_decl, get_array_decl, arraySpecFromNode, exbind_ok, one, hts, hvs]
  | const c =>
      simp [visit_Assign, is_var_decl, get_array_decl, arraySpecFromNode, exbind_ok, one, hts, hvs]
  | binop l op r =>
      simp [visit_Assign, is_var_decl, get_array_decl, arraySpecFromNode, exbind_ok, one, hts, hvs]
  | unaryop op e =>
      simp [visit_Assign, is_var_decl, get_array_decl, arraySpecFromNode, exbind_ok, one, hts, hvs]
  | compare l op r =>
      simp [visit_Assign, is_var_decl, get_array_decl, arraySpecFromNode, exbind_ok, one, hts, hvs]
  | subscript v ix =>
      simp [visit_Assign, is_var_decl, get_array_decl, ha, exbind_ok, one, hts, hvs]


/-- C7 counterexample: the claim requires the right side to be a single-argument
call for a declaration to be emitted, but a three-argument `vec3(...)` call is
still emitted as a declaration rather than as the plain assignment form. -/
theorem C7_counterexample :
    visit_Assign true (.cons (.name "a") .nil)
        (.call (.name "vec3") (.cons (.const (.floatC "1.0"))
          (.cons (.const (.floatC "2.0")) (.cons (.const (.floatC "3.0")) .nil))) .nil) =
      .ok ["vec3 a = vec3(1.0, 2.0, 3.0)"] ∧
    ExprList.length (.cons (.const (.floatC "1.0"))
        (.cons (.const (.floatC "2.0")) (.cons (.const (.floatC "3.0")) .nil))) = 3 ∧
    ("vec3 a = vec3(1.0, 2.0, 3.0)" : String) ≠ "a = vec3(1.0, 2.0, 3.0)" :=
  ⟨rfl, rfl, by decide⟩

/-- C7 (amended): for a single-target assignment whose right side is a call
with a bare-name callee (of any arity), the declaration `<type> <name> = <rhs>`
is emitted iff the callee name is a known GLSL type or capitalized and the
target is a bare name not starting with `gl_`; otherwise such an assignment
emits the plain `<lhs> = <rhs>`, and an assignment whose right side is neither
a call, an array literal, a list comprehension, nor an array-spec subscript
also emits the plain form. -/
theorem C7_decl_vs_plain (tid fn : String) (args : ExprList) (kws : KwList) (rv : String)
    (hrv : visitExpr (.call (.name fn) args kws) = .ok [rv]) :
    (visit_Assign true (.cons (.name tid) .nil) (.call (.name fn) args kws) =
        .ok [fn ++ " " ++ tid ++ " = " ++ rv]
      ↔ (strStarts tid "gl_" = false ∧
         (GLSL_BUILTIN_TYPES.contains fn || capitalizedName fn) = true)) ∧
    ((strStarts tid "gl_" = true ∨
        (GLSL_BUILTIN_TYPES.contains fn || capitalizedName fn) = false) →
      visit_Assign true (.cons (.name tid) .nil) (.call (.name fn) args kws) =
        .ok [tid ++ " = " ++ rv]) ∧
    (∀ (tgt val : Expr) (ts vs : String),
        visitExpr tgt = .ok [ts] → visitExpr val = .ok [vs] →
        isCallE val = false → isListLitE val = false → isListCompE val = false →
        arraySpecFromNode val = none →
        visit_Assign true (.cons tgt .nil) val = .ok [ts ++ " = " ++ vs]) := by
  refine ⟨⟨?_, ?_⟩, ?_,
    fun tgt val ts vs u1 u2 u3 u4 u5 u6 => C7_plain_other tgt val ts vs u1 u2 u3 u4 u5 u6⟩
  · intro hout
    cases hb1 : strStarts tid "gl_" with
    | true =>
        exfalso
        have hp := C7_case_gl tid fn args kws rv hrv hb1
        rw [hp] at hout
        have h0 := Except.ok.inj hout
        simp only [List.cons.injEq, and_true] at h0
        exact declLine_ne_plainLine fn tid rv h0.symm
    | false =>
        cases hb2 : (GLSL_BUILTIN_TYPES.contains fn || capitalizedName fn) with
        | true => exact ⟨rfl, rfl⟩
        | false =>
            exfalso
            have hp := C7_case_notype tid fn args kws rv hrv hb1 hb2
            rw [hp] at hout
            have h0 := Except.ok.inj hout
            simp only [List.cons.injEq, and_true] at h0
            exact declLine_ne_plainLine fn tid rv h0.symm
  · intro hb
    exact C7_case_decl tid fn args kws rv hrv hb.1 hb.2
  · intro hb
    cases hb with
    | inl hgl => exact C7_case_gl tid fn args kws rv hrv hgl
    | inr hno =>
        cases hb1 : strStarts tid "gl_" with
        | true => exact C7_case_gl tid fn args kws rv hrv hb1
        | false => exact C7_case_notype tid fn args kws rv hrv hb1 hno

/-- C7 witness: a known-type declaration, a `gl_`-target plain assignment, an
unknown-lowercase-callee plain assignment, and a non-call plain assignment. -/
theorem C7_decl_vs_plain_witness :
    visit_Assign true (.cons (.name "a") .nil)
        (.call (.name "vec3") (.cons (.const (.floatC "0.5")) .nil) .nil) =
      .ok ["vec3 a = vec3(0.5)"] ∧
    visit_Assign true (.cons (.name "gl_Position") .nil)
        (.call (.name "vec4") (.cons (.name "p") .nil) .nil) =
      .ok ["gl_Position = vec4(p)"] ∧
    visit_Assign true (.cons (.name "a") .nil)
        (.call (.name "foo") (.cons (.name "p") .nil) .nil) =
      .ok ["a = foo(p)"] ∧
    visit_Assign true (.cons (.name "b") .nil) (.binop (.name "x") .add (.name "y")) =
      .ok ["b = (x + y)"] := by
  have h1 := C7_decl_vs_plain "a" "vec3" (.cons (.const (.floatC "0.5")) .nil) .nil "vec3(0.5)" rfl
  have h2 := C7_decl_vs_plain "gl_Position" "vec4" (.cons (.name "p") .nil) .nil "vec4(p)" rfl
  have h3 := C7_decl_vs_plain "a" "foo" (.cons (.name "p") .nil) .nil "foo(p)" rfl
  exact ⟨h1.1.mpr ⟨rfl, rfl⟩, h2.2.1 (Or.inl rfl), h3.2.1 (Or.inr rfl),
    h1.2.2 (.name "b") (.binop (.name "x") .add (.name "y")) "b" "(x + y)" rfl rfl rfl rfl rfl rfl⟩


/-- C8: assigning a non-empty array literal of `n` elements to a bare name
emits exactly `<type> <name>[<n>] = <type>[<n>](<elems>)` where `<type>` is
`float` iff some rendered element contains a decimal point and `int`
otherwise, while an empty array literal is a hard error. -/
theorem C8_array_literal (v : String) (elts : ExprList) (rendered : List String) (t : String)
    (hne : elts ≠ .nil) (hr : visitEach elts = .ok rendered)
    (ht : t = if rendered.any (fun s => strHasChar s '.') then "float" else "int") :
    visit_Assign true (.cons (.name v) .nil) (.listLit elts) =
      .ok [t ++ " " ++ v ++ "[" ++ toString elts.length ++ "] = " ++
           t ++ "[" ++ toString elts.length ++ "](" ++
           String.intercalate ", " rendered ++ ")"] ∧
    visit_Assign true (.cons (.name v) .nil) (.listLit .nil) =
      .error "empty array literals are not supported in GLSL" := by
  constructor
  · cases elts with
    | nil => exact absurd rfl hne
    | cons first tl =>
        cases hv : visitExpr first with
        | error msg =>
            rw [show visitEach (.cons first tl) = .error msg by
              simp only [visitEach, hv] <;> rfl] at hr
            exact Except.noConfusion hr
        | ok l0 =>
            cases ho : one l0 with
            | error msg =>
                rw [show visitEach (.cons first tl) = .error msg by
                  simp only [visitEach, hv, exbind_ok, ho] <;> rfl] at hr
                exact Except.noConfusion hr
            | ok s0 =>
                cases htl : visitEach tl with
                | error msg =>
                    rw [show visitEach (.cons first tl) = .error msg by
                      simp only [visitEach, hv, exbind_ok, ho, htl] <;> rfl] at hr
                    exact Except.noConfusion hr
                | ok rest =>
                    have hrv : rendered = s0 :: rest := by
                      rw [show visitEach (.cons first tl) = .ok (s0 :: rest) by
                        simp only [visitEach, hv, exbind_ok, ho, htl] <;> rfl] at hr
                      exact (Except.ok.inj hr).symm
                    subst hrv
                    subst ht
                    simp only [visit_Assign, arrayLiteralAssign, hv, exbind_ok, ho, htl]
                    rw [show visitEach (.cons first tl) = .ok (s0 :: rest) by
                      simp only [visitEach, hv, exbind_ok, ho, htl] <;> rfl]
                    rfl
  · rfl

/-- C8 witness: a float literal array, an int literal array, and the rejected
empty literal. -/
theorem C8_array_literal_witness :
    visit_Assign true (.cons (.name "arr") .nil)
        (.listLit (.cons (.const (.floatC "1.0"))
          (.cons (.const (.floatC "2.0")) (.cons (.const (.floatC "3.0")) .nil)))) =
      .ok ["float arr[3] = float[3](1.0, 2.0, 3.0)"] ∧
    visit_Assign true (.cons (.name "arr") .nil)
        (.listLit (.cons (.const (.intC 1)) (.cons (.const (.intC 2))
          (.cons (.const (.intC 3)) (.cons (.const (.intC 4)) .nil))))) =
      .ok ["int arr[4] = int[4](1, 2, 3, 4)"] ∧
    visit_Assign true (.cons (.name "arr") .nil) (.listLit .nil) =
      .error "empty array literals are not supported in GLSL" := by
  have h1 := C8_array_literal "arr"
      (.cons (.const (.floatC "1.0")) (.cons (.const (.floatC "2.0"))
        (.cons (.const (.floatC "3.0")) .nil)))
      ["1.0", "2.0", "3.0"] "float" (fun h => ExprList.noConfusion h) rfl rfl
  have h2 := C8_array_literal "arr"
      (.cons (.const (.intC 1)) (.cons (.const (.intC 2))
        (.cons (.const (.intC 3)) (.cons (.const (.intC 4)) .nil))))
      ["1", "2", "3", "4"] "int" (fun h => ExprList.noConfusion h) rfl rfl
  exact ⟨h1.1, h2.1, h1.2⟩


theorem dedentGo_all_ok (w : Nat) : ∀ ls : List (List Char),
    (∀ l ∈ ls, (l.take w).all pyIsSpace = true) →
    dedentGo w ls = .ok (ls.map (fun l => l.drop w)) := by
  intro ls
  induction ls with
  | nil => intro _; rfl
  | cons l tl ih =>
      intro hall
      have hl := hall l (by simp)
      have hfilter : ((l.take w).filter (fun c => !(pyIsSpace c))) = [] := by
        rw [List.filter_eq_nil_iff]
        intro c hc
        have := (List.all_eq_true.mp hl) c hc
        simp [this]
      have hcond : ¬(((l.take w).filter (fun c => !(pyIsSpace c))) ≠ []) := by
        rw [hfilter]
        exact fun h => h rfl
      simp only [dedentGo]
      rw [if_neg hcond, ih (fun x hx => hall x (by simp [hx]))]
      rfl

theorem dedentGo_exists_err (w : Nat) : ∀ ls : List (List Char),
    (∃ l ∈ ls, (l.take w).all pyIsSpace = false) →
    ∃ msg, dedentGo w ls = .error msg := by
  intro ls
  induction ls with
  | nil => rintro ⟨l, hl, _⟩; exact absurd hl (by simp)
  | cons l tl ih =>
      rintro ⟨x, hx, hbad⟩
      by_cases hhead : ((l.take w).filter (fun c => !(pyIsSpace c))) = []
      · have hlgood : (l.take w).all pyIsSpace = true := by
          rw [List.all_eq_true]
          intro c hc
          by_contra hcbad
          have : c ∈ (l.take w).filter (fun c => !(pyIsSpace c)) := by
            rw [List.mem_filter]
            exact ⟨hc, by simp [Bool.not_eq_true] at hcbad ⊢; exact hcbad⟩
          rw [hhead] at this
          exact absurd this (by simp)
        have hxtl : x ∈ tl := by
          rcases List.mem_cons.mp hx with h | h
          · exfalso; rw [h] at hbad; rw [hlgood] at hbad; exact Bool.noConfusion hbad
          · exact h
        obtain ⟨msg, hmsg⟩ := ih ⟨x, hxtl, hbad⟩
        refine ⟨msg, ?_⟩
        have hcond : ¬(((l.take w).filter (fun c => !(pyIsSpace c))) ≠ []) := by
          rw [hhead]
          exact fun h => h rfl
        simp only [dedentGo]
        rw [if_neg hcond, hmsg]
        rfl
      · exact ⟨"less indentation than first line: " ++ String.mk l, by
          simp only [dedentGo]
          rw [if_pos hhead]⟩

/-- C6 counterexample: the claim says de-indentation raises whenever some line
has less leading whitespace than the first line's indentation width, but a
line whose characters are all whitespace and shorter than the width (here an
empty line, leading run 0 against width 2) passes and is truncated instead. -/
theorem C6_counterexample :
    dedent [[' ', ' ', 'a'], []] = .ok [['a'], []] ∧
    leadWsRun [] < stripLen [' ', ' ', 'a'] :=
  ⟨rfl, by decide⟩

/-- C6 (amended): the Source Normalizer takes the first line's
leading-whitespace run as the de-indent width and drops the first `width`
characters of every line; it raises exactly when some line has a
non-whitespace character among its first `width` characters — a line whose
first `width` characters are all whitespace (including shorter, all-whitespace
lines such as blank lines) is accepted even if its leading-whitespace run is
shorter than the width. -/
theorem C6_dedent (l0 : List Char) (rest : List (List Char)) :
    stripLen l0 = leadWsRun l0 ∧
    ((∀ l ∈ l0 :: rest, (l.take (stripLen l0)).all pyIsSpace = true) →
       dedent (l0 :: rest) = .ok ((l0 :: rest).map (fun l => l.drop (stripLen l0)))) ∧
    ((∃ l ∈ l0 :: rest, (l.take (stripLen l0)).all pyIsSpace = false) →
       ∃ msg, dedent (l0 :: rest) = .error msg) := by
  refine ⟨?_, ?_, ?_⟩
  · unfold stripLen leadWsRun
    have := List.takeWhile_append_dropWhile (p := pyIsSpace) (l := l0)
    have hlen : (l0.takeWhile pyIsSpace).length + (l0.dropWhile pyIsSpace).length = l0.length := by
      conv_rhs => rw [← this]
      rw [List.length_append]
    omega
  · intro hall
    exact dedentGo_all_ok (stripLen l0) (l0 :: rest) hall
  · intro hbad
    exact dedentGo_exists_err (stripLen l0) (l0 :: rest) hbad

/-- C6 witness: a consistently indented input is de-indented unchanged
otherwise, and an under-indented non-blank line raises. -/
theorem C6_dedent_witness :
    dedent [[' ', ' ', 'd'], [' ', ' ', 'x']] = .ok [['d'], ['x']] ∧
    (∃ msg, dedent [[' ', ' ', 'd'], ['x']] = .error msg) := by
  have h1 := C6_dedent [' ', ' ', 'd'] [[' ', ' ', 'x']]
  have h2 := C6_dedent [' ', ' ', 'd'] [['x']]
  refine ⟨?_, h2.2.2 ⟨['x'], by decide, by decide⟩⟩
  have := h1.2.1 (by decide)
  exact this


theorem visitExpr_const (c : PyConst) : visitExpr (.const c) = .ok (visit_Constant c) := rfl

/-- C2 (amended): for a bounded comprehension whose range bounds are integer
literals with step at least 1, the declared array length equals
`ceil((end - start) / step)` and the element type is `float` iff the rendered
element expression contains a decimal point; a non-constant bound is an error
whose message states that the size must be computable at transpile time. -/
theorem C2_comprehension (v lv : String) (elt : Expr) (es : String) (s e st : Int)
    (he : visitExpr elt = .ok [es]) (hst : 1 ≤ st) :
    handle_list_comp_assign (.name v) elt
        (.cons (.name lv) (.call (.name "range")
          (.cons (.const (.intC s)) (.cons (.const (.intC e))
            (.cons (.const (.intC st)) .nil))) .nil) .nil .nil) =
      .ok ([(if strHasChar es '.' then "float" else "int") ++ " " ++ v ++
              "[" ++ toString (ceilDivI (e - s) st) ++ "]",
            forHeaderSpec lv (toString s) (toString e) (toString st)] ++
           appendBlock [v ++ "[" ++ lv ++ "] = " ++ es] ++ [rbrace]) ∧
    (∀ bound : String, handle_list_comp_assign (.name v) elt
        (.cons (.name lv) (.call (.name "range") (.cons (.name bound) .nil) .nil) .nil .nil) =
      .error compBoundsMsg) ∧
    compBoundsMsg =
      "List comprehension size must be computable at transpile time. Use constant range() arguments." := by
  refine ⟨?_, fun bound => rfl, rfl⟩
  by_cases hS : toString st = "1"
  · have hst1 : st = 1 := int_toString_eq_one st hS
    subst hst1
    have h11 : toString (1 : Int) = "1" := rfl
    simp only [handle_list_comp_assign, parseRangeArgs, renderBound, exbind_ok,
               visitExpr_const, visit_Constant, one, evalBoundOr, evalBound, he,
               pure, Except.pure, h11, eq_self_iff_true, if_true,
               forHeaderSpec, ceilDivI_one]
  · have hne0 : st ≠ 0 := by omega
    have hne1 : st ≠ 1 := by
      intro h1
      rw [h1] at hS
      exact hS rfl
    simp only [handle_list_comp_assign, parseRangeArgs, renderBound, exbind_ok,
               visitExpr_const, visit_Constant, one, evalBoundOr, evalBound, he,
               pure, Except.pure, hS, hne1, hne0, if_false, eq_self_iff_true,
               forHeaderSpec]
    rw [fdiv_ceil_eq (e - s) st hst]


/-- C2 counterexample: with compile-time-constant bounds `range(10, 0, -1)`
(step −1), the emitted array length is 12 while `ceil((end-start)/step)` is
10, so the claimed length formula fails for a negative constant step. -/
theorem C2_counterexample :
    handle_list_comp_assign (.name "a") (.const (.intC 1))
        (.cons (.name "i") (.call (.name "range")
          (.cons (.const (.intC 10)) (.cons (.const (.intC 0))
            (.cons (.unaryop .usub (.const (.intC 1))) .nil))) .nil) .nil .nil) =
      .ok ["int a[12]", "for (int i = 10; i < 0; i += -1) " ++ lbrace,
           "    a[i] = 1;", rbrace] ∧
    ceilDivI (0 - 10) (-1) = 10 ∧ (12 : Int) ≠ 10 :=
  ⟨rfl, by decide, by decide⟩

/-- C2 witness: `[0.5 for i in range(0, 7, 2)]` unrolls to a `float` array of
length `ceil(7/2) = 4`, and a non-constant bound is the stated hard error. -/
theorem C2_comprehension_witness :
    handle_list_comp_assign (.name "a") (.const (.floatC "0.5"))
        (.cons (.name "i") (.call (.name "range")
          (.cons (.const (.intC 0)) (.cons (.const (.intC 7))
            (.cons (.const (.intC 2)) .nil))) .nil) .nil .nil) =
      .ok (["float a[4]", "for (int i = 0; i < 7; i += 2) " ++ lbrace] ++
           ["    a[i] = 0.5;"] ++ [rbrace]) ∧
    handle_list_comp_assign (.name "a") (.const (.intC 1))
        (.cons (.name "i") (.call (.name "range") (.cons (.name "n") .nil) .nil) .nil .nil) =
      .error compBoundsMsg :=
  ⟨(C2_comprehension "a" "i" (.const (.floatC "0.5")) "0.5" 0 7 2 rfl (by decide)).1,
   (C2_comprehension "a" "i" (.const (.intC 1)) "1" 0 7 2 rfl (by decide)).2.1 "n"⟩


mutual
theorem countRet_rewriteF : ∀ s : FStmt, countRet (rewriteF s) = 0
  | .retS e => rfl
  | .tempDeclS => rfl
  | .tempAssignS e => rfl
  | .otherS => rfl
  | .ifS b o => by
      simp [rewriteF, countRet, countRetL_rewriteFL b, countRetL_rewriteFL o]

theorem countRetL_rewriteFL : ∀ l : FStmtList, countRetL (rewriteFL l) = 0
  | .nil => rfl
  | .cons hd tl => by
      simp [rewriteFL, countRetL, countRet_rewriteF hd, countRetL_rewriteFL tl]
end

mutual
theorem countTemp_rewriteF : ∀ s : FStmt, countTemp (rewriteF s) = countTemp s
  | .retS e => rfl
  | .tempDeclS => rfl
  | .tempAssignS e => rfl
  | .otherS => rfl
  | .ifS b o => by
      simp [rewriteF, countTemp, countTempL_rewriteFL b, countTempL_rewriteFL o]

theorem countTempL_rewriteFL : ∀ l : FStmtList, countTempL (rewriteFL l) = countTempL l
  | .nil => rfl
  | .cons hd tl => by
      simp [rewriteFL, countTempL, countTemp_rewriteF hd, countTempL_rewriteFL tl]
end

mutual
theorem countTempAssign_rewriteF : ∀ s : FStmt,
    countTempAssign (rewriteF s) = countTempAssign s + countRet s
  | .retS e => rfl
  | .tempDeclS => rfl
  | .tempAssignS e => rfl
  | .otherS => rfl
  | .ifS b o => by
      simp [rewriteF, countTempAssign, countRet,
            countTempAssignL_rewriteFL b, countTempAssignL_rewriteFL o]
      omega

theorem countTempAssignL_rewriteFL : ∀ l : FStmtList,
    countTempAssignL (rewriteFL l) = countTempAssignL l + countRetL l
  | .nil => rfl
  | .cons hd tl => by
      simp [rewriteFL, countTempAssignL, countRetL,
            countTempAssign_rewriteF hd, countTempAssignL_rewriteFL tl]
      omega
end

theorem countRetL_append : ∀ a b : FStmtList,
    countRetL (a.append b) = countRetL a + countRetL b
  | .nil, b => by simp [FStmtList.append, countRetL]
  | .cons x xs, b => by
      simp [FStmtList.append, countRetL, countRetL_append xs b]
      omega

theorem countTempL_append : ∀ a b : FStmtList,
    countTempL (a.append b) = countTempL a + countTempL b
  | .nil, b => by simp [FStmtList.append, countTempL]
  | .cons x xs, b => by
      simp [FStmtList.append, countTempL, countTempL_append xs b]
      omega

theorem countTempAssignL_append : ∀ a b : FStmtList,
    countTempAssignL (a.append b) = countTempAssignL a + countTempAssignL b
  | .nil, b => by simp [FStmtList.append, countTempAssignL]
  | .cons x xs, b => by
      simp [FStmtList.append, countTempAssignL, countTempAssignL_append xs b]
      omega

/-- C1: the Multi-Return Flattener leaves a body with zero or one `return`
syntactically unchanged; on a body with more than one `return` (and no prior
occurrence of the temporary) its output has exactly one `return`, exactly one
temporary declaration, and one temporary assignment per original `return`. -/
theorem C1_flattener (body : FStmtList)
    (htemp : countTempL body = 0) (hassign : countTempAssignL body = 0) :
    (countRetL body ≤ 1 → flattenReturns body = body) ∧
    (1 < countRetL body →
       countRetL (flattenReturns body) = 1 ∧
       countTempL (flattenReturns body) = 1 ∧
       countTempAssignL (flattenReturns body) = countRetL body) := by
  constructor
  · intro h
    simp [flattenReturns, h]
  · intro h
    have hnle : ¬(countRetL body ≤ 1) := by omega
    simp only [flattenReturns, if_neg hnle]
    refine ⟨?_, ?_, ?_⟩
    · simp [countRetL, countRet, countRetL_append, countRetL_rewriteFL]
    · simp [countTempL, countTemp, countTempL_append, countTempL_rewriteFL, htemp]
    · simp [countTempAssignL, countTempAssign, countTempAssignL_append,
            countTempAssignL_rewriteFL, countRetL, countRet, hassign]

/-- C1 witness: a single-return body is untouched; a two-return body (an
early return inside an `if` plus a trailing return) flattens to one return,
one temporary declaration and two temporary assignments. -/
theorem C1_flattener_witness :
    flattenReturns (.cons (.retS "x") .nil) = .cons (.retS "x") .nil ∧
    countRetL (.cons (.ifS (.cons (.retS "a") .nil) .nil)
      (.cons (.retS "b") .nil)) = 2 ∧
    countRetL (flattenReturns (.cons (.ifS (.cons (.retS "a") .nil) .nil)
      (.cons (.retS "b") .nil))) = 1 ∧
    countTempL (flattenReturns (.cons (.ifS (.cons (.retS "a") .nil) .nil)
      (.cons (.retS "b") .nil))) = 1 ∧
    countTempAssignL (flattenReturns (.cons (.ifS (.cons (.retS "a") .nil) .nil)
      (.cons (.retS "b") .nil))) = 2 := by
  have h1 := C1_flattener (.cons (.retS "x") .nil) rfl rfl
  have h2 := C1_flattener (.cons (.ifS (.cons (.retS "a") .nil) .nil)
      (.cons (.retS "b") .nil)) rfl rfl
  refine ⟨h1.1 (by decide), rfl, (h2.2 (by decide)).1, (h2.2 (by decide)).2.1, ?_⟩
  rw [(h2.2 (by decide)).2.2]
  rfl

end Pyglsl
